import Mathlib

/-!
Verification of the goddess gateway request-handling dataplane.

This file gives a shallow embedding, in Lean 4, of the parts of the gateway
that the checked properties talk about: the error mapper
(src/proxy/error_handler.go, writeError), the per-endpoint retry loop and
response relay of buildEndpoint (src/proxy/proxy.go), the retry-metric split
(splitRetryMetricsHandler), the per-endpoint retry circuit breaker wiring,
the route-table Update flow, the streaming body lifecycle tracker
(middleware MetaStreamContext), and the X-Forwarded-For header setter.

Machine-level effects (clocks, sockets, goroutines) are abstracted: the
upstream transport is a function from the attempt index to a result, the
overall context is a function telling at which iterations it is already
done, and traces of observable events (metric emissions, breaker calls,
selector signals) are recorded explicitly.
-/

namespace Goddess

/-- Model of a Go error as observed by the proxy: whether errors.Is finds
context.Canceled or context.DeadlineExceeded in its chain, and its Error()
text. -/
structure Err where
  canceled : Bool
  deadlineExceeded : Bool
  text : String
deriving DecidableEq, Repr

/-- Model of an upstream http.Response: status code, header map, trailer map,
an optional body (none models a nil Body) together with a closed flag for
the body. Reading a net/http response body after Close fails, which the
closed flag lets the relay model observe. -/
structure Response where
  statusCode : Nat
  header : List (String × List String)
  trailer : List (String × List String)
  body : Option (List Nat)
  bodyClosed : Bool
deriving DecidableEq, Repr

/-- Modelled from the spec: a retry condition is a predicate over the
response; supported kinds are a status-code range and header
presence/equality (section 4.C; the prepareRetryStrategy code is part of
this repository but not under src/). -/
inductive Cond
  | byStatusCode (lo hi : Nat)
  | byHeaderPresent (name : String)
  | byHeaderEq (name value : String)
deriving DecidableEq, Repr

/-- Modelled from the spec: whether a single retry condition matches a
response. -/
def condMatches (c : Cond) (r : Response) : Bool :=
  match c with
  | .byStatusCode lo hi => lo ≤ r.statusCode && r.statusCode ≤ hi
  | .byHeaderPresent n => r.header.any (fun kv => kv.1 == n)
  | .byHeaderEq n v => r.header.any (fun kv => kv.1 == n && kv.2.contains v)

/-- Modelled from the spec: judgeRetryRequired applies the conditions in
order and the attempt is retry-eligible if any matches (section 4.C). -/
def judgeRetryRequired (conds : List Cond) (r : Response) : Bool :=
  conds.any (fun c => condMatches c r)

/-- Modelled from the spec: the retry strategy compiled from the endpoint
policy, keeping the fields the attempt loop reads (attempts and the
condition list; the two timeouts are abstracted into the context model). -/
structure RetryStrategy where
  attempts : Nat
  conds : List Cond
deriving Repr

/-- Modelled from the spec: breaker state as sliding-window success/failure
counters (section 3, Breaker State). The sre implementation lives in the
external aegis library; only its counters and its Allow/MarkSuccess/
MarkFailed contract are modelled. -/
structure BreakerState where
  total : Nat
  success : Nat
deriving DecidableEq, Repr

/-- Fresh breaker state, as produced by sre.NewBreaker in buildEndpoint
(src/proxy/proxy.go line 136). -/
def initBreaker : BreakerState := ⟨0, 0⟩

/-- MarkSuccess on the breaker counters. -/
def breakerMarkSuccess (s : BreakerState) : BreakerState :=
  ⟨s.total + 1, s.success + 1⟩

/-- MarkFailed on the breaker counters. -/
def breakerMarkFailed (s : BreakerState) : BreakerState :=
  ⟨s.total + 1, s.success⟩

/-- Result of a refused Allow call: either the distinct NotAllowed signal of
the circuitbreaker package, or some other error. -/
inductive AllowRefusal
  | notAllowed
  | other (e : Err)
deriving DecidableEq, Repr

/-- Modelled from the spec: Allow refuses (with the NotAllowed signal) when
the window holds at least the minimum request count 10 and the success
ratio is below the 0.8 threshold; the parameters are the ones passed to
sre.NewBreaker in buildEndpoint (sre.WithSuccess(0.8), sre.WithRequest(10)).
The sre internals are in the external aegis library. -/
def breakerAllow (s : BreakerState) : Option AllowRefusal :=
  if 10 ≤ s.total && s.success * 5 < s.total * 4 then some .notAllowed else none

/-- Translation from an HTTP status code to a gRPC code, as done by the
kratos transport/http/status package (external dependency) used by
writeError; 499 maps to Canceled (1), 504 to DeadlineExceeded (4), and
unlisted codes such as 502 to Unknown (2). -/
def toGRPCCode (status : Nat) : Nat :=
  if status = 200 then 0
  else if status = 400 then 3
  else if status = 401 then 16
  else if status = 403 then 7
  else if status = 404 then 5
  else if status = 409 then 10
  else if status = 429 then 8
  else if status = 499 then 1
  else if status = 500 then 13
  else if status = 501 then 12
  else if status = 503 then 14
  else if status = 504 then 4
  else 2

/-- Observable outcome of writeError (src/proxy/error_handler.go): the
status passed to observer.HandleRequest, the status written to the client,
the gRPC headers set (when the endpoint is gRPC), and whether the default
branch logged the error. -/
structure WriteErrorOut where
  observedStatus : Nat
  clientStatus : Nat
  contentType : Option String
  grpcStatus : Option Nat
  grpcMessage : Option String
  logged : Bool
deriving DecidableEq, Repr

/-- Status mapping of writeError's switch: context-canceled or the literal
text "client disconnected" give 499, context deadline exceeded gives 504,
anything else gives 502 (src/proxy/error_handler.go lines 15-25). -/
def errStatusCode (e : Err) : Nat :=
  if e.canceled || e.text == "client disconnected" then 499
  else if e.deadlineExceeded then 504
  else 502

/-- Embedding of writeError (src/proxy/error_handler.go): maps the error to
a status, reports it to the observer, and on gRPC endpoints sets the gRPC
headers and writes 200 instead of the mapped status. -/
def writeError (grpcEndpoint : Bool) (e : Err) : WriteErrorOut :=
  let sc := errStatusCode e
  if grpcEndpoint then
    { observedStatus := sc
      clientStatus := 200
      contentType := some "application/grpc"
      grpcStatus := some (toGRPCCode sc)
      grpcMessage := some e.text
      logged := sc == 502 }
  else
    { observedStatus := sc
      clientStatus := sc
      contentType := none
      grpcStatus := none
      grpcMessage := none
      logged := sc == 502 }

/-- Observable events of the attempt loop: loop iteration entry, a breaker
Allow consultation, a round trip through the middleware chain (recording
the LastAttempt flag visible during the invocation), a retry metric
emission (observer.HandleRetry with state "true", "false" or "breaker"),
and a breaker MarkSuccess/MarkFailed feed. Events are tagged with the
attempt index they belong to. -/
inductive Ev
  | iterStart (i : Nat)
  | allowCheck (i : Nat)
  | roundTrip (i : Nat) (lastAttempt : Bool)
  | retryMetric (i : Nat) (state : String)
  | breakerMark (i : Nat) (success : Bool)
deriving DecidableEq, Repr

/-- Mutable per-request state threaded through the attempt loop of
buildEndpoint: the resp and err variables, the LastAttempt flag of the
request options, and the breaker counters. -/
structure LoopCore where
  resp : Option Response
  err : Option Err
  lastAttempt : Bool
  breaker : BreakerState
deriving DecidableEq, Repr

/-- Initial loop state: resp and err are nil after the body read succeeded,
LastAttempt is false, the breaker is the endpoint's own fresh instance. -/
def initCore : LoopCore := ⟨none, none, false, initBreaker⟩

/-- State effect of the markSuccess closure of buildEndpoint
(src/proxy/proxy.go lines 137-142): MarkSuccess feeds the breaker when
i > 0. -/
def markSuccessSt (i : Nat) (c : LoopCore) : LoopCore :=
  if 0 < i then { c with breaker := breakerMarkSuccess c.breaker } else c

/-- Events emitted by the markSuccess closure: the retry metric through
splitRetryMetricsHandler's success handler (suppressed for i = 0), then the
breaker MarkSuccess feed when i > 0. -/
def markSuccessEvs (i : Nat) : List Ev :=
  if 0 < i then [.retryMetric i "true", .breakerMark i true] else []

/-- State effect of the markFailed closure of buildEndpoint
(src/proxy/proxy.go lines 143-148): MarkFailed feeds the breaker when
i > 0. -/
def markFailedSt (i : Nat) (c : LoopCore) : LoopCore :=
  if 0 < i then { c with breaker := breakerMarkFailed c.breaker } else c

/-- Events emitted by the markFailed closure: splitRetryMetricsHandler's
failed handler suppresses the metric for i = 0 and for context-canceled
errors, then the breaker MarkFailed feed happens when i > 0. -/
def markFailedEvs (i : Nat) (e : Err) : List Ev :=
  (if 0 < i ∧ e.canceled = false then [Ev.retryMetric i "false"] else []) ++
    (if 0 < i then [Ev.breakerMark i false] else [])

/-- Events emitted by the markBreaker closure of buildEndpoint
(src/proxy/proxy.go lines 149-151): only the metric, suppressed for i = 0;
the breaker counters are not fed and the state is unchanged. -/
def markBreakerEvs (i : Nat) : List Ev :=
  if 0 < i then [.retryMetric i "breaker"] else []

/-- Environment of one buffered request: the compiled retry strategy, the
upstream transport as a function of the attempt index, the overall context
(some error when ctx.Err() is already non-nil at that iteration), the
retry feature gate, and the breaker's Allow decision function. -/
structure LoopEnv where
  strat : RetryStrategy
  upstream : Nat → Except Err Response
  ctxErr : Nat → Option Err
  retryEnabled : Bool
  allow : BreakerState → Option AllowRefusal

/-- Body of one iteration of the attempt loop after the retry gate
(src/proxy/proxy.go lines 222-247): set LastAttempt on the final configured
attempt, check the overall context, invoke the transport, and classify the
outcome. Returns the new state, the emitted events, and whether the loop
continues. -/
def attemptBody (env : LoopEnv) (i : Nat) (c : LoopCore) : LoopCore × List Ev × Bool :=
  let c := if env.strat.attempts ≤ i + 1 then { c with lastAttempt := true } else c
  match env.ctxErr i with
  | some e =>
    (markFailedSt i { c with err := some e }, markFailedEvs i e, false)
  | none =>
    match env.upstream i with
    | .error e =>
      (markFailedSt i { c with resp := none, err := some e },
        Ev.roundTrip i c.lastAttempt :: markFailedEvs i e, true)
    | .ok r =>
      if judgeRetryRequired env.strat.conds r then
        (markFailedSt i { c with resp := some { r with bodyClosed := true }, err := none },
          Ev.roundTrip i c.lastAttempt ::
            markFailedEvs i ⟨false, false, "assertion failed"⟩, true)
      else
        (markSuccessSt i { c with resp := some r, err := none, lastAttempt := true },
          Ev.roundTrip i c.lastAttempt :: markSuccessEvs i, false)

/-- One iteration of the attempt loop (src/proxy/proxy.go lines 207-248):
for i > 0 the feature gate and the retry breaker guard the attempt; a
NotAllowed refusal records a breaker event, any other refusal records a
failed event (the refusal error shadows the outer err variable), and both
end the loop. -/
def stepIter (env : LoopEnv) (i : Nat) (c : LoopCore) : LoopCore × List Ev × Bool :=
  if 0 < i then
    if env.retryEnabled = false then (c, [.iterStart i], false)
    else
      match env.allow c.breaker with
      | some .notAllowed =>
        (c, .iterStart i :: .allowCheck i :: markBreakerEvs i, false)
      | some (.other e) =>
        (markFailedSt i c, .iterStart i :: .allowCheck i :: markFailedEvs i e, false)
      | none =>
        let r := attemptBody env i c
        (r.1, .iterStart i :: .allowCheck i :: r.2.1, r.2.2)
  else
    let r := attemptBody env i c
    (r.1, .iterStart i :: r.2.1, r.2.2)

/-- Fuel-indexed driver of the attempt loop starting at index i; the fuel
is at least the number of remaining iterations, so with fuel = attempts the
run from index 0 is the whole for loop. -/
def runFrom (env : LoopEnv) : Nat → Nat → LoopCore → LoopCore × List Ev
  | 0, _, c => (c, [])
  | fuel + 1, i, c =>
    if i < env.strat.attempts then
      let r := stepIter env i c
      if r.2.2 then
        let q := runFrom env fuel (i + 1) r.1
        (q.1, r.2.1 ++ q.2)
      else (r.1, r.2.1)
    else (c, [])

/-- The whole attempt loop of buildEndpoint for one buffered request. -/
def runLoop (env : LoopEnv) : LoopCore × List Ev :=
  runFrom env env.strat.attempts 0 initCore

/-- Selector finalizer signal: DoneInfo with Err, or DoneInfo with ReplyMD. -/
inductive DoneSig
  | errSig
  | replyMD
deriving DecidableEq, Repr

/-- Observable outcome of the whole buffered handler: loop trace, status
written to the client, headers relayed (with late trailers appended under
the Trailer: prefix), body bytes copied to the client, whether the body
copy failed, the selector signals emitted, and the status passed to the
terminal observer.HandleRequest. -/
structure HandlerResult where
  trace : List Ev
  wroteStatus : Option Nat
  headersOut : List (String × List String)
  grpcHeaders : List (String × String)
  bodyOut : List Nat
  copyFailed : Bool
  doneSignals : List DoneSig
  terminalStatus : Option Nat
deriving Repr

/-- Terminal part of the buffered handler (src/proxy/proxy.go lines
249-297): a pending error goes through writeError; otherwise the response
headers and status are relayed and doCopyBody copies the body. A nil body
finishes without signalling the selector; a closed body fails the copy
(net/http reports reading a closed response body as an error), signalling
DoneInfo with Err; a readable body is copied in full and the selector gets
DoneInfo with ReplyMD, then the trailers are appended under the Trailer:
prefix. The case with no error and no response cannot arise when at least
one attempt ran; it is mapped to an empty result. -/
def relay (grpcEndpoint : Bool) (c : LoopCore) (trace : List Ev) : HandlerResult :=
  match c.err with
  | some e =>
    let wo := writeError grpcEndpoint e
    { trace := trace
      wroteStatus := some wo.clientStatus
      headersOut := []
      grpcHeaders :=
        (wo.contentType.map (fun v => ("Content-Type", v))).toList ++
        (wo.grpcStatus.map (fun v => ("Grpc-Status", toString v))).toList ++
        (wo.grpcMessage.map (fun v => ("Grpc-Message", v))).toList
      bodyOut := []
      copyFailed := false
      doneSignals := []
      terminalStatus := some wo.observedStatus }
  | none =>
    match c.resp with
    | none =>
      { trace := trace, wroteStatus := none, headersOut := [], grpcHeaders := []
        bodyOut := [], copyFailed := false, doneSignals := [], terminalStatus := none }
    | some r =>
      match r.body with
      | none =>
        { trace := trace
          wroteStatus := some r.statusCode
          headersOut := r.header
          grpcHeaders := []
          bodyOut := []
          copyFailed := false
          doneSignals := []
          terminalStatus := some r.statusCode }
      | some bs =>
        if r.bodyClosed then
          { trace := trace
            wroteStatus := some r.statusCode
            headersOut := r.header
            grpcHeaders := []
            bodyOut := []
            copyFailed := true
            doneSignals := [.errSig]
            terminalStatus := some r.statusCode }
        else
          { trace := trace
            wroteStatus := some r.statusCode
            headersOut := r.header ++ r.trailer.map (fun kv => ("Trailer:" ++ kv.1, kv.2))
            grpcHeaders := []
            bodyOut := bs
            copyFailed := false
            doneSignals := [.replyMD]
            terminalStatus := some r.statusCode }

/-- The whole buffered handler for one request: run the attempt loop, then
the terminal relay. -/
def runHandler (env : LoopEnv) (grpcEndpoint : Bool) : HandlerResult :=
  let (c, t) := runLoop env
  relay grpcEndpoint c t

/-- Observable outcome of the stream subroutine proxyStream
(src/proxy/proxy.go lines 164-189). -/
structure StreamResult where
  lastAttemptAtEntry : Bool
  lastAttemptAtInvoke : Bool
  doneSignals : List DoneSig
  retryEvents : List (Nat × String)
  terminalStatus : Option Nat
deriving Repr

/-- Embedding of proxyStream: LastAttempt is set at entry, the reverse
proxy performs a single round trip; on error the ErrorHandler signals
DoneInfo with Err, records a failed mark at index 0 (suppressed by the
metric split) and writes the error; on success ModifyResponse signals
DoneInfo with ReplyMD, records a success mark at index 0 and reports the
status to the observer. -/
def runStreamHandler (grpcEndpoint : Bool) (outcome : Except Err Response) : StreamResult :=
  match outcome with
  | .error e =>
    let wo := writeError grpcEndpoint e
    { lastAttemptAtEntry := true
      lastAttemptAtInvoke := true
      doneSignals := [.errSig]
      retryEvents := []
      terminalStatus := some wo.observedStatus }
  | .ok r =>
    { lastAttemptAtEntry := true
      lastAttemptAtInvoke := true
      doneSignals := [.replyMD]
      retryEvents := []
      terminalStatus := some r.statusCode }

/-- List update at an index, leaving the list unchanged when the index is
out of range. -/
def updAt {α : Type} : List α → Nat → (α → α) → List α
  | [], _, _ => []
  | a :: rest, 0, f => f a :: rest
  | a :: rest, n + 1, f => a :: updAt rest n f

/-- Breaker instances of a route table: buildEndpoint calls sre.NewBreaker
once per endpoint (src/proxy/proxy.go line 136), so an Update over n
endpoints yields n independent fresh breaker states. -/
def buildGatewayBreakers (n : Nat) : List BreakerState :=
  List.replicate n initBreaker

/-- Recording a retry outcome through endpoint ep's handler: its markSuccess
and markFailed closures feed only that endpoint's own breaker, and only for
attempt indices i > 0. -/
def recordRetryOutcome (bs : List BreakerState) (ep i : Nat) (success : Bool) :
    List BreakerState :=
  if 0 < i then
    updAt bs ep (fun b => if success then breakerMarkSuccess b else breakerMarkFailed b)
  else bs

/-- Allow decision seen by retries of endpoint ep given the table's breaker
states. -/
def allowDecision (bs : List BreakerState) (ep : Nat) : Option AllowRefusal :=
  breakerAllow (bs.getD ep initBreaker)

/-- Outcome of building one endpoint during Update: buildEndpoint may fail,
or it succeeds and router.Handle may then fail, or both succeed. -/
inductive BuildOutcome
  | buildFail
  | handleFail
  | ok
deriving DecidableEq, Repr

/-- Observable outcome of Update (src/proxy/proxy.go lines 301-317):
whether an error was returned, which table is live afterwards (false = the
old one, true = the new one), the endpoint indices whose closers were
invoked by the deferred closeOnError calls (in defer LIFO order), and
whether closing the old table was scheduled. -/
structure UpdateOut where
  errored : Bool
  newTableLive : Bool
  closedClosers : List Nat
  oldScheduledClose : Bool
deriving DecidableEq, Repr

/-- Tail of the Update loop from endpoint index k, with built the indices of
endpoints already built in this call (most recent first, matching the defer
stack): a buildEndpoint failure returns the error and the deferred
closeOnError calls close every already-built closer; a Handle failure does
the same but the current endpoint was already built so its closer is closed
too; when every endpoint succeeds the new router is swapped in and the old
one is scheduled for closing. -/
def updateFrom (k : Nat) (built : List Nat) : List BuildOutcome → UpdateOut
  | [] =>
    { errored := false, newTableLive := true, closedClosers := []
      oldScheduledClose := true }
  | o :: rest =>
    match o with
    | .buildFail =>
      { errored := true, newTableLive := false, closedClosers := built
        oldScheduledClose := false }
    | .handleFail =>
      { errored := true, newTableLive := false, closedClosers := k :: built
        oldScheduledClose := false }
    | .ok => updateFrom (k + 1) (k :: built) rest

/-- Embedding of Update over the per-endpoint build outcomes. -/
def updateModel (outcomes : List BuildOutcome) : UpdateOut :=
  updateFrom 0 [] outcomes

/-- State of a MetaStreamContext (middleware, src/unnamed/part_001): the
registered-body counter, the closed counter, how many times the on-finish
hook list has run, and the per-wrapped-body one-shot doneOnce guards in
registration order. -/
structure StreamCtxState where
  bodiesCount : Nat
  closedCount : Nat
  finishFired : Nat
  bodyDone : List Bool
deriving DecidableEq, Repr

/-- Fresh MetaStreamContext allocated at stream handler entry. -/
def initStreamCtx : StreamCtxState := ⟨0, 0, 0, []⟩

/-- Operations on a stream context: WrapReadCloserBody/WrapReadWriteCloserBody
call RegisterBody, and Close on the wrapper with registration index b
signals the context. -/
inductive StreamOp
  | registerBody
  | closeBody (b : Nat)
deriving DecidableEq, Repr

/-- Embedding of RegisterBody and of the Close methods of readCloserBody
and readWriteCloserBody (src/unnamed/part_001): RegisterBody increments the
body counter; Close runs under the body's doneOnce, increments the closed
counter via notifyBodyClosed, and when closedCount has reached bodiesCount
with at least one body registered, the finishOnce guard runs the on-finish
hooks once. -/
def applyStreamOp (s : StreamCtxState) : StreamOp → StreamCtxState
  | .registerBody =>
    { s with bodiesCount := s.bodiesCount + 1, bodyDone := s.bodyDone ++ [false] }
  | .closeBody b =>
    if s.bodyDone.getD b true = true then s
    else
      { s with
        closedCount := s.closedCount + 1
        bodyDone := updAt s.bodyDone b (fun _ => true)
        finishFired :=
          if (s.bodiesCount ≤ s.closedCount + 1 ∧ 0 < s.bodiesCount) ∧ s.finishFired = 0
            then 1 else s.finishFired }

/-- Run of a sequence of stream-context operations. -/
def runStreamOps (ops : List StreamOp) : StreamCtxState :=
  ops.foldl applyStreamOp initStreamCtx

/-- Model of the X-Forwarded-For header value in a request: absent, present
with a nil value slice (the omit sentinel of Go issue 38079), or present
with a list of values. -/
inductive XFFVal
  | absent
  | presentNil
  | present (vs : List String)
deriving DecidableEq, Repr

/-- Request fields setXFFHeader can touch: the remote address, the
X-Forwarded-For entry, and all the other headers. -/
structure XFFRequest where
  remoteAddr : String
  xff : XFFVal
  otherHeaders : List (String × List String)
deriving DecidableEq, Repr

/-- Index right after the last colon of a character list, if any. -/
def lastColonEnd (cs : List Char) : Option Nat :=
  match cs with
  | [] => none
  | c :: rest =>
    match lastColonEnd rest with
    | some n => some (n + 1)
    | none => if c = ':' then some 1 else none

/-- Model of net.SplitHostPort from the Go standard library: the address is
split at its last colon; an address with no colon has no port; a
non-bracketed host containing a colon or any bracket is rejected, and a
bracketed host must be of the exact form left bracket, host, right bracket,
colon, port. -/
def splitHostPort (s : String) : Option (String × String) :=
  let cs := s.data
  match lastColonEnd cs with
  | none => none
  | some n =>
    let host := cs.take (n - 1)
    let port := cs.drop n
    if port.contains ':' || port.contains '[' || port.contains ']' then none
    else
      match host with
      | '[' :: inner =>
        if inner.getLast? = some ']' && !(inner.dropLast.contains ']') &&
            !(inner.dropLast.contains '[') then
          some (String.mk inner.dropLast, String.mk port)
        else none
      | _ =>
        if host.contains ':' || host.contains '[' || host.contains ']' then none
        else some (String.mk host, String.mk port)

/-- Embedding of setXFFHeader (src/proxy/proxy.go lines 467-482): when the
remote address parses as host:port, prior X-Forwarded-For values are folded
into one comma+space separated list with the client IP appended and stored
as the single new header value, unless the present-but-nil sentinel asks to
omit the header; when the remote address does not parse, nothing happens. -/
def setXFFHeader (req : XFFRequest) : XFFRequest :=
  match splitHostPort req.remoteAddr with
  | none => req
  | some (clientIP, _) =>
    let prior := match req.xff with
      | .present vs => vs
      | _ => []
    let omitHeader := req.xff = XFFVal.presentNil
    let ip := if prior.length > 0 then String.intercalate ", " prior ++ ", " ++ clientIP
      else clientIP
    if omitHeader then req else { req with xff := .present [ip] }

/-- Iterated failed-retry recordings through one endpoint's handler (each at
attempt index 1, so the breaker is fed). -/
def recordFailuresN (bs : List BreakerState) (ep : Nat) : Nat → List BreakerState
  | 0 => bs
  | n + 1 => recordRetryOutcome (recordFailuresN bs ep n) ep 1 false

/-- Invariant of the stream-context state: the closed counter counts the
closed bodies, the body counter counts the registrations, the on-finish
hooks have run at most once, and they have run whenever every registered
body is closed and at least one was registered. -/
def streamInv (s : StreamCtxState) : Prop :=
  s.closedCount = s.bodyDone.count true
  ∧ s.bodiesCount = s.bodyDone.length
  ∧ s.finishFired ≤ 1
  ∧ (0 < s.bodiesCount → s.bodiesCount ≤ s.closedCount → s.finishFired = 1)

/-- Attempt index an event is tagged with. -/
def evTag : Ev → Nat
  | .iterStart i => i
  | .allowCheck i => i
  | .roundTrip i _ => i
  | .retryMetric i _ => i
  | .breakerMark i _ => i

/-- Whether an event is a retry metric emission (observer.HandleRetry). -/
def isRetryMetricEv : Ev → Bool
  | .retryMetric _ _ => true
  | _ => false

/-- Whether an event is a loop iteration entry. -/
def isIterStartEv : Ev → Bool
  | .iterStart _ => true
  | _ => false

/-- Whether an event is a breaker Allow consultation. -/
def isAllowCheckEv : Ev → Bool
  | .allowCheck _ => true
  | _ => false

/-- Whether an event is a breaker MarkSuccess/MarkFailed feed. -/
def isBreakerMarkEv : Ev → Bool
  | .breakerMark _ _ => true
  | _ => false

/-- The round trips of a trace, as pairs of the attempt index and the
LastAttempt flag visible during the middleware chain invocation. -/
def roundTripsOf (t : List Ev) : List (Nat × Bool) :=
  t.filterMap fun ev =>
    match ev with
    | .roundTrip i b => some (i, b)
    | _ => none

/-- Number of retry metric events in a trace. -/
def countMetrics (t : List Ev) : Nat := (t.filter isRetryMetricEv).length

/-- Number of loop iterations entered in a trace. -/
def countStarts (t : List Ev) : Nat := (t.filter isIterStartEv).length

/-- Whether the final loop state holds a response with a non-nil body, the
condition under which the terminal doCopyBody signals the selector. -/
def respHasBody : Option Response → Bool
  | some r => r.body.isSome
  | none => false

/-- Environment of a buffered attempts=1 endpoint whose single upstream call
returns the given response (the claim C2 configuration). -/
def singleAttemptEnv (conds : List Cond) (r : Response) : LoopEnv :=
  ⟨⟨1, conds⟩, fun _ => Except.ok r, fun _ => none, true, breakerAllow⟩

/-- Concrete retriable response: status 500, one header, a three-byte body. -/
def respRetriable : Response := ⟨500, [("K", ["V"])], [], some [97, 98, 99], false⟩

/-- Concrete plain success response with a two-byte body. -/
def respOkPlain : Response := ⟨200, [], [], some [1, 2], false⟩

/-- Concrete attempts=1 environment with a retriable 500 upstream. -/
def envSingleRetriable : LoopEnv := singleAttemptEnv [.byStatusCode 500 504] respRetriable

/-- Concrete attempts=2 environment whose first attempt already succeeds
with a non-retriable response. -/
def envEarlySuccess : LoopEnv :=
  ⟨⟨2, [.byStatusCode 500 504]⟩, fun _ => Except.ok respOkPlain, fun _ => none,
    true, breakerAllow⟩

/-- Concrete opaque transport error. -/
def errBoom : Err := ⟨false, false, "boom"⟩

/-- Concrete context-canceled error. -/
def errCanceled : Err := ⟨true, false, "context canceled"⟩

/-- Concrete attempts=1 environment whose only attempt fails with a
transport error. -/
def envAllFail : LoopEnv :=
  ⟨⟨1, []⟩, fun _ => Except.error errBoom, fun _ => none, true, breakerAllow⟩

/-- Concrete attempts=3 environment that always responds with a retriable
500. -/
def envAlwaysRetriable : LoopEnv :=
  ⟨⟨3, [.byStatusCode 500 504]⟩, fun _ => Except.ok respRetriable, fun _ => none,
    true, breakerAllow⟩

/-- Concrete attempts=3 environment whose first attempt gets a retriable
500 and whose retries fail with context-canceled errors. -/
def envCancelRetry : LoopEnv :=
  ⟨⟨3, [.byStatusCode 500 504]⟩,
    fun i => if i = 0 then Except.ok respRetriable else Except.error errCanceled,
    fun _ => none, true, breakerAllow⟩

/-- Restatement of claim C3's description of the Error Mapper, written from
the claim text, to be compared with the writeError embedding: the mapped
status per error kind, the observer call with the mapped status, and the
gRPC header augmentation with client status 200. -/
def errorMapperClaim (grpcEndpoint : Bool) (e : Err) (o : WriteErrorOut) : Prop :=
  ((e.canceled = true ∨ e.text = "client disconnected") → o.observedStatus = 499)
  ∧ (e.canceled = false → e.text ≠ "client disconnected" → e.deadlineExceeded = true →
      o.observedStatus = 504)
  ∧ (e.canceled = false → e.text ≠ "client disconnected" → e.deadlineExceeded = false →
      o.observedStatus = 502 ∧ o.logged = true)
  ∧ (grpcEndpoint = true →
      o.contentType = some "application/grpc"
      ∧ o.grpcStatus = some (toGRPCCode o.observedStatus)
      ∧ o.grpcMessage = some e.text
      ∧ o.clientStatus = 200)
  ∧ (grpcEndpoint = false →
      o.clientStatus = o.observedStatus
      ∧ o.contentType = none ∧ o.grpcStatus = none ∧ o.grpcMessage = none)

/-- Claim C3: the Error Mapper maps context-canceled errors and the text
"client disconnected" to 499, context deadline exceeded to 504, and every
other error to 502 with an error log; the observer sees the mapped status;
on gRPC endpoints it sets Content-Type: application/grpc, Grpc-Status
translated from the mapped status, Grpc-Message from the error text, and
writes 200 to the client instead of the mapped status. -/
theorem writeError_meets_claim (grpcEndpoint : Bool) (e : Err) :
    errorMapperClaim grpcEndpoint e (writeError grpcEndpoint e) := by
  rcases e with ⟨c, d, t⟩
  by_cases ht : t = "client disconnected" <;>
    rcases c <;> rcases d <;> rcases grpcEndpoint <;>
    simp [errorMapperClaim, writeError, errStatusCode, ht]

/-- Closed instance of claim C3's theorem at a deadline-exceeded error on a
gRPC endpoint. -/
theorem writeError_meets_claim_inst :
    errorMapperClaim true ⟨false, true, "context deadline exceeded"⟩
      (writeError true ⟨false, true, "context deadline exceeded"⟩) :=
  writeError_meets_claim true ⟨false, true, "context deadline exceeded"⟩

/-- Claim C10: setXFFHeader leaves the request completely unchanged when the
remote address does not parse as a host:port pair; when it parses, the prior
X-Forwarded-For values are folded into one comma+space separated list with
the client IP appended, stored as the single header value, unless the
present-but-nil omit sentinel is set, and no other request field changes. -/
theorem setXFFHeader_frame (req : XFFRequest) :
    (splitHostPort req.remoteAddr = none → setXFFHeader req = req)
    ∧ (∀ ip port, splitHostPort req.remoteAddr = some (ip, port) →
        (setXFFHeader req).remoteAddr = req.remoteAddr
        ∧ (setXFFHeader req).otherHeaders = req.otherHeaders
        ∧ (req.xff = XFFVal.presentNil → setXFFHeader req = req)
        ∧ (req.xff = XFFVal.absent → (setXFFHeader req).xff = XFFVal.present [ip])
        ∧ (∀ vs, req.xff = XFFVal.present vs →
            (setXFFHeader req).xff = XFFVal.present
              [if vs.length > 0 then String.intercalate ", " vs ++ ", " ++ ip else ip])) := by
  constructor
  · intro h
    simp [setXFFHeader, h]
  · intro ip port h
    rcases req with ⟨ra, xff, oh⟩
    rcases xff <;> simp_all [setXFFHeader]

/-- Witness for claim C10: a request whose remote address parses, with one
prior X-Forwarded-For value, gets the folded list with the client IP
appended, and the untouched fields stay equal. -/
theorem setXFFHeader_frame_inst :
    splitHostPort "1.2.3.4:56" = some ("1.2.3.4", "56")
    ∧ (setXFFHeader ⟨"1.2.3.4:56", XFFVal.present ["10.0.0.1"], [("A", ["b"])]⟩).xff =
        XFFVal.present ["10.0.0.1, 1.2.3.4"]
    ∧ (setXFFHeader ⟨"1.2.3.4:56", XFFVal.present ["10.0.0.1"], [("A", ["b"])]⟩).otherHeaders =
        [("A", ["b"])] := by
  have hp : splitHostPort "1.2.3.4:56" = some ("1.2.3.4", "56") := by decide
  have h := setXFFHeader_frame ⟨"1.2.3.4:56", XFFVal.present ["10.0.0.1"], [("A", ["b"])]⟩
  refine ⟨hp, ?_, (h.2 "1.2.3.4" "56" hp).2.1⟩
  have hv := (h.2 "1.2.3.4" "56" hp).2.2.2.2 ["10.0.0.1"] rfl
  simpa using hv

/-- Counterexample to claim C1: the breaker is created inside buildEndpoint,
once per endpoint, so it is not process-wide. After fifteen failed retries
recorded through endpoint 0 of a two-endpoint table, endpoint 0's Allow
refuses with NotAllowed while endpoint 1's Allow decision is still the
permissive decision of the initial state: a retry recorded through one
endpoint's handler did not affect the other endpoint's Allow decision. -/
theorem breaker_not_shared :
    allowDecision (recordFailuresN (buildGatewayBreakers 2) 0 15) 0 =
        some AllowRefusal.notAllowed
    ∧ allowDecision (recordFailuresN (buildGatewayBreakers 2) 0 15) 1 =
        allowDecision (buildGatewayBreakers 2) 1
    ∧ allowDecision (recordFailuresN (buildGatewayBreakers 2) 0 15) 1 = none
    ∧ (recordFailuresN (buildGatewayBreakers 2) 0 15).getD 1 initBreaker =
        (buildGatewayBreakers 2).getD 1 initBreaker := by
  decide

/-- Reading a list at an index other than the updated one is unchanged. -/
theorem updAt_getD_ne {α : Type} (l : List α) (j k : Nat) (f : α → α) (d : α)
    (h : k ≠ j) : (updAt l j f).getD k d = l.getD k d := by
  induction l generalizing j k with
  | nil => rfl
  | cons a rest ih =>
    cases j with
    | zero =>
      cases k with
      | zero => exact absurd rfl h
      | succ k => rfl
    | succ j =>
      cases k with
      | zero => rfl
      | succ k =>
        simpa [updAt] using ih j k (fun hk => h (by omega))

/-- Claim C1 as amended: each endpoint built by Update has its own retry
breaker (success ratio threshold 0.8, minimum request count 10), created by
buildEndpoint, so a retry outcome recorded through one endpoint's handler
changes neither the breaker state nor the Allow decision of any other
endpoint. -/
theorem breaker_per_endpoint (bs : List BreakerState) (ep i : Nat) (success : Bool)
    (ep' : Nat) (h : ep' ≠ ep) :
    (recordRetryOutcome bs ep i success).getD ep' initBreaker = bs.getD ep' initBreaker
    ∧ allowDecision (recordRetryOutcome bs ep i success) ep' = allowDecision bs ep' := by
  have hg : (recordRetryOutcome bs ep i success).getD ep' initBreaker =
      bs.getD ep' initBreaker := by
    unfold recordRetryOutcome
    by_cases hi : 0 < i
    · simp only [if_pos hi]
      exact updAt_getD_ne bs ep ep' _ initBreaker h
    · simp [hi]
  exact ⟨hg, by unfold allowDecision; rw [hg]⟩

/-- Witness for claim C1's amended theorem: recording a failed retry through
endpoint 0 leaves endpoint 1's breaker state and Allow decision unchanged. -/
theorem breaker_per_endpoint_inst :
    (recordRetryOutcome (buildGatewayBreakers 2) 0 1 false).getD 1 initBreaker =
        (buildGatewayBreakers 2).getD 1 initBreaker
    ∧ allowDecision (recordRetryOutcome (buildGatewayBreakers 2) 0 1 false) 1 =
        allowDecision (buildGatewayBreakers 2) 1 :=
  breaker_per_endpoint (buildGatewayBreakers 2) 0 1 false 1 (by decide)

/-- Relation between updateFrom and its accumulator: on an all-ok outcome
list the result is the clean swap. -/
theorem updateFrom_all_ok (outcomes : List BuildOutcome) :
    ∀ k built, (∀ o ∈ outcomes, o = BuildOutcome.ok) →
      updateFrom k built outcomes =
        { errored := false, newTableLive := true, closedClosers := []
          oldScheduledClose := true } := by
  induction outcomes with
  | nil => intro k built _; rfl
  | cons o rest ih =>
    intro k built h
    have ho : o = BuildOutcome.ok := h o (by simp)
    subst ho
    exact ih (k + 1) (k :: built) (fun o ho => h o (by simp [ho]))

/-- Relation between updateFrom and its accumulator when a failure occurs:
the update errors, the old table stays live, the old table is not scheduled
for closing, the accumulated closers and every endpoint built before the
first failure are closed, and on a Handle failure the failing endpoint's
own closer is closed too. -/
theorem updateFrom_fail (outcomes : List BuildOutcome) :
    ∀ k built, outcomes.findIdx (fun o => o != BuildOutcome.ok) < outcomes.length →
      (updateFrom k built outcomes).errored = true
      ∧ (updateFrom k built outcomes).newTableLive = false
      ∧ (updateFrom k built outcomes).oldScheduledClose = false
      ∧ (∀ m ∈ built, m ∈ (updateFrom k built outcomes).closedClosers)
      ∧ (∀ m, k ≤ m → m < k + outcomes.findIdx (fun o => o != BuildOutcome.ok) →
          m ∈ (updateFrom k built outcomes).closedClosers)
      ∧ (outcomes.getD (outcomes.findIdx (fun o => o != BuildOutcome.ok))
            BuildOutcome.ok = BuildOutcome.handleFail →
          k + outcomes.findIdx (fun o => o != BuildOutcome.ok) ∈
            (updateFrom k built outcomes).closedClosers) := by
  induction outcomes with
  | nil => intro k built h; simp at h
  | cons o rest ih =>
    intro k built h
    cases o with
    | buildFail =>
      have hidx : (BuildOutcome.buildFail :: rest).findIdx
          (fun o => o != BuildOutcome.ok) = 0 := rfl
      refine ⟨rfl, rfl, rfl, fun m hm => hm, ?_, ?_⟩
      · intro m hkm hm
        rw [hidx] at hm
        omega
      · intro hg
        rw [hidx] at hg
        simp only [List.getD_cons_zero] at hg
        cases hg
    | handleFail =>
      have hidx : (BuildOutcome.handleFail :: rest).findIdx
          (fun o => o != BuildOutcome.ok) = 0 := rfl
      refine ⟨rfl, rfl, rfl, fun m hm => by simp [updateFrom, hm], ?_, ?_⟩
      · intro m hkm hm
        rw [hidx] at hm
        omega
      · intro _
        rw [hidx]
        simp [updateFrom]
    | ok =>
      have hidx : (BuildOutcome.ok :: rest).findIdx (fun o => o != BuildOutcome.ok) =
          (rest.findIdx (fun o => o != BuildOutcome.ok)) + 1 := by
        simp [List.findIdx_cons]
      rw [hidx] at h
      simp only [List.length_cons] at h
      have hrest : rest.findIdx (fun o => o != BuildOutcome.ok) < rest.length := by
        omega
      have := ih (k + 1) (k :: built) hrest
      refine ⟨this.1, this.2.1, this.2.2.1, ?_, ?_, ?_⟩
      · intro m hm
        exact this.2.2.2.1 m (by simp [hm])
      · intro m hkm hm
        rw [hidx] at hm
        by_cases hmk : m = k
        · exact this.2.2.2.1 m (by simp [hmk])
        · exact this.2.2.2.2.1 m (by omega) (by omega)
      · intro hg
        rw [hidx] at hg ⊢
        simp only [List.getD_cons_succ] at hg
        have hmem := this.2.2.2.2.2 hg
        have he : k + (rest.findIdx (fun o => o != BuildOutcome.ok) + 1) =
            k + 1 + rest.findIdx (fun o => o != BuildOutcome.ok) := by omega
        rw [he]
        exact hmem

/-- Claim C6: when building any endpoint fails, Update returns the error,
the previously live table keeps serving (no swap, no scheduled close of the
old table), and the closer of every endpoint already built for the rejected
configuration is invoked; when every endpoint builds and registers, the new
table is swapped in, no closer is invoked, and closing the old table is
scheduled. -/
theorem update_rollback (outcomes : List BuildOutcome) :
    ((∀ o ∈ outcomes, o = BuildOutcome.ok) →
      updateModel outcomes =
        { errored := false, newTableLive := true, closedClosers := []
          oldScheduledClose := true })
    ∧ (outcomes.findIdx (fun o => o != BuildOutcome.ok) < outcomes.length →
        (updateModel outcomes).errored = true
        ∧ (updateModel outcomes).newTableLive = false
        ∧ (updateModel outcomes).oldScheduledClose = false
        ∧ (∀ m, m < outcomes.findIdx (fun o => o != BuildOutcome.ok) →
            m ∈ (updateModel outcomes).closedClosers)
        ∧ (outcomes.getD (outcomes.findIdx (fun o => o != BuildOutcome.ok))
              BuildOutcome.ok = BuildOutcome.handleFail →
            outcomes.findIdx (fun o => o != BuildOutcome.ok) ∈
              (updateModel outcomes).closedClosers)) := by
  constructor
  · intro h
    exact updateFrom_all_ok outcomes 0 [] h
  · intro h
    have := updateFrom_fail outcomes 0 [] h
    refine ⟨this.1, this.2.1, this.2.2.1, ?_, ?_⟩
    · intro m hm
      exact this.2.2.2.2.1 m (Nat.zero_le m) (by omega)
    · intro hg
      simpa using this.2.2.2.2.2 hg

/-- Witness for claim C6: a configuration whose third endpoint fails to
build keeps the old table live and closes the two endpoints already built,
and an all-ok configuration swaps cleanly. -/
theorem update_rollback_inst :
    ([BuildOutcome.ok, BuildOutcome.ok, BuildOutcome.buildFail].findIdx
        (fun o => o != BuildOutcome.ok) <
      [BuildOutcome.ok, BuildOutcome.ok, BuildOutcome.buildFail].length)
    ∧ (updateModel [BuildOutcome.ok, BuildOutcome.ok, BuildOutcome.buildFail]).errored = true
    ∧ 0 ∈ (updateModel [BuildOutcome.ok, BuildOutcome.ok,
        BuildOutcome.buildFail]).closedClosers
    ∧ 1 ∈ (updateModel [BuildOutcome.ok, BuildOutcome.ok,
        BuildOutcome.buildFail]).closedClosers
    ∧ updateModel [BuildOutcome.ok, BuildOutcome.ok] =
        { errored := false, newTableLive := true, closedClosers := []
          oldScheduledClose := true } := by
  have hlt : [BuildOutcome.ok, BuildOutcome.ok, BuildOutcome.buildFail].findIdx
      (fun o => o != BuildOutcome.ok) <
      [BuildOutcome.ok, BuildOutcome.ok, BuildOutcome.buildFail].length := by decide
  have h := update_rollback [BuildOutcome.ok, BuildOutcome.ok, BuildOutcome.buildFail]
  have h2 := update_rollback [BuildOutcome.ok, BuildOutcome.ok]
  refine ⟨hlt, (h.2 hlt).1, ?_, ?_, h2.1 (by decide)⟩
  · exact (h.2 hlt).2.2.2.1 0 (by decide)
  · exact (h.2 hlt).2.2.2.1 1 (by decide)

/-- An out-of-range getD with a true default means the index is in range
whenever the read value is false. -/
theorem getD_false_lt (l : List Bool) (b : Nat) (h : l.getD b true = false) :
    b < l.length := by
  induction l generalizing b with
  | nil => simp [List.getD] at h
  | cons a rest ih =>
    cases b with
    | zero => simp
    | succ b =>
      have := ih b (by simpa [List.getD] using h)
      simpa using Nat.succ_lt_succ this

/-- Updating a list does not change its length. -/
theorem updAt_length {α : Type} (l : List α) (j : Nat) (f : α → α) :
    (updAt l j f).length = l.length := by
  induction l generalizing j with
  | nil => rfl
  | cons a rest ih =>
    cases j with
    | zero => rfl
    | succ j => simpa [updAt] using ih j

/-- Setting a false entry to true increments the count of true entries. -/
theorem count_updAt_true (l : List Bool) (b : Nat) (h : l.getD b true = false) :
    (updAt l b (fun _ => true)).count true = l.count true + 1 := by
  induction l generalizing b with
  | nil => simp [List.getD] at h
  | cons a rest ih =>
    cases b with
    | zero =>
      have ha : a = false := by simpa [List.getD] using h
      subst ha
      simp [updAt, List.count_cons]
    | succ b =>
      have := ih b (by simpa [List.getD] using h)
      simp [updAt, List.count_cons, this]
      omega

/-- A list of booleans that are all true has as many true entries as
elements. -/
theorem count_true_of_all (l : List Bool) (h : l.all (fun x => x) = true) :
    l.count true = l.length := by
  induction l with
  | nil => rfl
  | cons a rest ih =>
    simp only [List.all_cons, Bool.and_eq_true] at h
    have ha : a = true := h.1
    subst ha
    simp [List.count_cons, ih h.2]

/-- The stream-context invariant holds initially. -/
theorem streamInv_init : streamInv initStreamCtx := by
  refine ⟨rfl, rfl, by decide, ?_⟩
  intro h
  simp [initStreamCtx] at h

/-- The stream-context invariant is preserved by RegisterBody and by body
Close signals. -/
theorem streamInv_step (s : StreamCtxState) (op : StreamOp) (hs : streamInv s) :
    streamInv (applyStreamOp s op) := by
  obtain ⟨h1, h2, h3, h4⟩ := hs
  cases op with
  | registerBody =>
    refine ⟨by simpa [applyStreamOp, List.count_append] using h1, ?_, h3, ?_⟩
    · simp [applyStreamOp, h2]
    · intro _ hle
      have hcl : s.bodyDone.count true ≤ s.bodyDone.length := List.count_le_length _ _
      simp only [applyStreamOp] at hle
      omega
  | closeBody b =>
    by_cases hd : s.bodyDone.getD b true = true
    · simp only [applyStreamOp, if_pos hd]
      exact ⟨h1, h2, h3, h4⟩
    · have hd' : s.bodyDone.getD b true = false := by
        cases hgd : s.bodyDone.getD b true
        · rfl
        · exact absurd hgd hd
      simp only [applyStreamOp, if_neg hd]
      refine ⟨?_, ?_, ?_, ?_⟩
      · simp [count_updAt_true s.bodyDone b hd', h1]
      · simp [updAt_length, h2]
      · simp only
        split <;> omega
      · intro hpos hle
        simp only at hpos hle ⊢
        have hcond : (s.bodiesCount ≤ s.closedCount + 1 ∧ 0 < s.bodiesCount) :=
          ⟨hle, hpos⟩
        split
        · rfl
        · next hnc =>
          have hnz : s.finishFired ≠ 0 := fun hz => hnc ⟨hcond, hz⟩
          omega

/-- The stream-context invariant holds after any operation sequence. -/
theorem streamInv_run (ops : List StreamOp) : streamInv (runStreamOps ops) := by
  have : ∀ s, streamInv s → streamInv (ops.foldl applyStreamOp s) := by
    induction ops with
    | nil => intro s hs; exact hs
    | cons op rest ih =>
      intro s hs
      exact ih (applyStreamOp s op) (streamInv_step s op hs)
  exact this initStreamCtx streamInv_init

/-- Claim C7: for any operation sequence on a Meta Stream Context the
on-finish hooks fire at most once, and they have fired exactly once as soon
as at least one body was registered and every registered body has been
closed; a firing can only happen at an operation after which the close
signals have reached the registered-body count with at least one body
registered; and a second Close on an already-closed wrapped body changes
nothing. -/
theorem streamCtx_on_finish_once (ops : List StreamOp) (s : StreamCtxState) (op : StreamOp)
    (b : Nat) (hall : (runStreamOps ops).bodyDone.all (fun x => x) = true)
    (hpos : 0 < (runStreamOps ops).bodiesCount)
    (hfired : (applyStreamOp s op).finishFired = 1)
    (hdone : s.bodyDone.getD b true = true) :
    (runStreamOps ops).finishFired ≤ 1
    ∧ (runStreamOps ops).finishFired = 1
    ∧ (s.finishFired = 1 ∨
        ((applyStreamOp s op).bodiesCount ≤ (applyStreamOp s op).closedCount
          ∧ 0 < (applyStreamOp s op).bodiesCount))
    ∧ applyStreamOp s (StreamOp.closeBody b) = s := by
  obtain ⟨h1, h2, h3, h4⟩ := streamInv_run ops
  refine ⟨h3, ?_, ?_, ?_⟩
  · exact h4 hpos (by rw [h1, h2, count_true_of_all _ hall])
  · cases op with
    | registerBody =>
      left
      simpa [applyStreamOp] using hfired
    | closeBody b' =>
      by_cases hd : s.bodyDone.getD b' true = true
      · left
        rw [applyStreamOp, if_pos hd] at hfired
        exact hfired
      · rw [applyStreamOp, if_neg hd] at hfired ⊢
        simp only at hfired ⊢
        by_cases hfire :
            (s.bodiesCount ≤ s.closedCount + 1 ∧ 0 < s.bodiesCount) ∧ s.finishFired = 0
        · right
          exact ⟨hfire.1.1, hfire.1.2⟩
        · left
          rw [if_neg hfire] at hfired
          exact hfired
  · rw [applyStreamOp, if_pos hdone]

/-- Witness for claim C7: registering two bodies and closing both (with a
duplicate close of the first) fires the hooks exactly once, the firing
operation is one after which both bodies are closed, and the duplicate
close is a no-op. -/
theorem streamCtx_on_finish_once_inst :
    (runStreamOps [StreamOp.registerBody, StreamOp.registerBody, StreamOp.closeBody 0,
        StreamOp.closeBody 0, StreamOp.closeBody 1]).bodyDone.all (fun x => x) = true
    ∧ 0 < (runStreamOps [StreamOp.registerBody, StreamOp.registerBody, StreamOp.closeBody 0,
        StreamOp.closeBody 0, StreamOp.closeBody 1]).bodiesCount
    ∧ (runStreamOps [StreamOp.registerBody, StreamOp.registerBody, StreamOp.closeBody 0,
        StreamOp.closeBody 0, StreamOp.closeBody 1]).finishFired = 1
    ∧ applyStreamOp ⟨2, 1, 0, [true, false]⟩ (StreamOp.closeBody 0) =
        ⟨2, 1, 0, [true, false]⟩ := by
  have hall : (runStreamOps [StreamOp.registerBody, StreamOp.registerBody,
      StreamOp.closeBody 0, StreamOp.closeBody 0,
      StreamOp.closeBody 1]).bodyDone.all (fun x => x) = true := by decide
  have hpos : 0 < (runStreamOps [StreamOp.registerBody, StreamOp.registerBody,
      StreamOp.closeBody 0, StreamOp.closeBody 0,
      StreamOp.closeBody 1]).bodiesCount := by decide
  have hdone : ([true, false] : List Bool).getD 0 true = true := by decide
  have h := streamCtx_on_finish_once
    [StreamOp.registerBody, StreamOp.registerBody, StreamOp.closeBody 0,
      StreamOp.closeBody 0, StreamOp.closeBody 1]
    ⟨2, 1, 0, [true, false]⟩ (StreamOp.closeBody 1) 0 hall hpos (by decide) hdone
  exact ⟨hall, hpos, h.2.1, h.2.2.2⟩

/-- Every event emitted by one loop iteration is tagged with that
iteration's attempt index. -/
theorem evTag_mem_block (env : LoopEnv) (i : Nat) (c : LoopCore) :
    ∀ ev ∈ (stepIter env i c).2.1, evTag ev = i := by
  intro ev hev
  unfold stepIter attemptBody markSuccessEvs markFailedEvs markBreakerEvs at hev
  repeat' split at hev
  all_goals simp at hev
  all_goals try casesm* _ ∨ _
  all_goals subst_vars
  all_goals simp_all [evTag]

/-- Allow consultations, breaker feeds and retry metric emissions happen
only in iterations with a positive attempt index. -/
theorem gated_mem_block (env : LoopEnv) (i : Nat) (c : LoopCore) :
    ∀ ev ∈ (stepIter env i c).2.1,
      (isAllowCheckEv ev = true ∨ isBreakerMarkEv ev = true ∨ isRetryMetricEv ev = true) →
      0 < i := by
  intro ev hev hcl
  unfold stepIter attemptBody markSuccessEvs markFailedEvs markBreakerEvs at hev
  repeat' split at hev
  all_goals simp at hev
  all_goals try casesm* _ ∨ _
  all_goals subst_vars
  all_goals simp_all [isAllowCheckEv, isBreakerMarkEv, isRetryMetricEv]

/-- One loop iteration enters exactly once, and emits at most one retry
metric event, none at attempt index zero. -/
theorem counts_block (env : LoopEnv) (i : Nat) (c : LoopCore) :
    countStarts (stepIter env i c).2.1 = 1
    ∧ countMetrics (stepIter env i c).2.1 ≤ 1
    ∧ (i = 0 → countMetrics (stepIter env i c).2.1 = 0) := by
  unfold stepIter attemptBody markSuccessEvs markFailedEvs markBreakerEvs
  repeat' split
  all_goals simp_all [countStarts, countMetrics, isIterStartEv, isRetryMetricEv]
  all_goals omega

/-- When a gated iteration performs a round trip, its event block starts
with the iteration entry followed by the Allow consultation, and the round
trip comes after both. -/
theorem allow_before_roundTrip_block (env : LoopEnv) (i : Nat) (c : LoopCore)
    (j : Nat) (b : Bool) (hi : 0 < i)
    (hrt : Ev.roundTrip j b ∈ (stepIter env i c).2.1) :
    ∃ rest, (stepIter env i c).2.1 = Ev.iterStart i :: Ev.allowCheck i :: rest
      ∧ Ev.roundTrip j b ∈ rest := by
  by_cases hre : env.retryEnabled = false
  · rw [stepIter, if_pos hi, if_pos hre] at hrt
    simp at hrt
  · rw [stepIter, if_pos hi, if_neg hre] at hrt ⊢
    cases hallow : env.allow c.breaker with
    | none =>
      rw [hallow] at hrt
      have hrt' : Ev.roundTrip j b ∈
          Ev.iterStart i :: Ev.allowCheck i :: (attemptBody env i c).2.1 := hrt
      refine ⟨(attemptBody env i c).2.1, rfl, ?_⟩
      rcases List.mem_cons.mp hrt' with h | h
      · simp at h
      · rcases List.mem_cons.mp h with h2 | h2
        · simp at h2
        · exact h2
    | some r =>
      cases r with
      | notAllowed =>
        rw [hallow] at hrt
        simp [markBreakerEvs, hi] at hrt
      | other e =>
        rw [hallow] at hrt
        simp [markFailedEvs, hi] at hrt

/-- When the breaker refuses a gated iteration, the loop stops, no round
trip happens, and the refusal is classified as a breaker event for the
NotAllowed signal and as a failed event for any other non-canceled error. -/
theorem refusal_block (env : LoopEnv) (i : Nat) (c : LoopCore) (r : AllowRefusal)
    (hi : 0 < i) (hre : env.retryEnabled = true)
    (hallow : env.allow c.breaker = some r) :
    (stepIter env i c).2.2 = false
    ∧ (∀ b, Ev.roundTrip i b ∉ (stepIter env i c).2.1)
    ∧ (r = AllowRefusal.notAllowed →
        Ev.retryMetric i "breaker" ∈ (stepIter env i c).2.1)
    ∧ (∀ e, r = AllowRefusal.other e → e.canceled = false →
        Ev.retryMetric i "false" ∈ (stepIter env i c).2.1) := by
  have hre' : ¬env.retryEnabled = false := by simp [hre]
  cases r with
  | notAllowed =>
    rw [stepIter, if_pos hi, if_neg hre', hallow]
    simp [markBreakerEvs, hi]
  | other e =>
    rw [stepIter, if_pos hi, if_neg hre', hallow]
    simp [markFailedEvs, hi]

/-- The LastAttempt flag observed by a round trip of one iteration is true
exactly when the iteration is the final configured attempt or the flag was
already set on entry. -/
theorem roundTrip_flag_block (env : LoopEnv) (i : Nat) (c : LoopCore)
    (j : Nat) (b : Bool) (hrt : Ev.roundTrip j b ∈ (stepIter env i c).2.1) :
    b = (decide (env.strat.attempts ≤ i + 1) || c.lastAttempt) := by
  unfold stepIter attemptBody markSuccessEvs markFailedEvs markBreakerEvs at hrt
  repeat' split at hrt
  all_goals simp_all

/-- When an iteration lets the loop continue, the LastAttempt flag it leaves
behind is true exactly when the iteration was the final configured attempt
or the flag was already set on entry. -/
theorem cont_flag_block (env : LoopEnv) (i : Nat) (c : LoopCore) :
    (stepIter env i c).2.2 = true →
    (stepIter env i c).1.lastAttempt =
      (decide (env.strat.attempts ≤ i + 1) || c.lastAttempt) := by
  unfold stepIter attemptBody markSuccessSt markFailedSt
  repeat' split
  all_goals intro hc
  all_goals simp_all

/-- When the upstream fails an executed attempt with a context-canceled
error, the iteration emits no failed retry metric. -/
theorem canceled_no_false_metric_block (env : LoopEnv) (i : Nat) (c : LoopCore)
    (e : Err) (hup : env.upstream i = Except.error e) (hcanc : e.canceled = true)
    (j : Nat) (b : Bool) (hrt : Ev.roundTrip j b ∈ (stepIter env i c).2.1) :
    Ev.retryMetric i "false" ∉ (stepIter env i c).2.1 := by
  intro hmet
  unfold stepIter attemptBody markSuccessEvs markFailedEvs markBreakerEvs at hrt hmet
  repeat' split at hrt
  all_goals simp_all

/-- Per-event facts about iteration blocks lift to whole-loop traces. -/
theorem runFrom_mem_lift (env : LoopEnv) (P : Ev → Prop)
    (hP : ∀ i c, ∀ ev ∈ (stepIter env i c).2.1, P ev) :
    ∀ fuel i c, ∀ ev ∈ (runFrom env fuel i c).2, P ev := by
  intro fuel
  induction fuel with
  | zero =>
    intro i c ev hev
    simp [runFrom] at hev
  | succ fuel ih =>
    intro i c ev hev
    rw [runFrom] at hev
    by_cases hlt : i < env.strat.attempts
    · rw [if_pos hlt] at hev
      by_cases hcont : (stepIter env i c).2.2 = true
      · simp only [hcont, if_true] at hev
        rcases List.mem_append.mp (by simpa using hev) with h | h
        · exact hP i c ev h
        · exact ih (i + 1) (stepIter env i c).1 ev h
      · simp only [Bool.not_eq_true] at hcont
        simp only [hcont, Bool.false_eq_true, if_false] at hev
        exact hP i c ev (by simpa using hev)
    · rw [if_neg hlt] at hev
      simp at hev

/-- Events of a loop run starting at index i are tagged with indices at
least i. -/
theorem runFrom_tag_ge (env : LoopEnv) :
    ∀ fuel i c, ∀ ev ∈ (runFrom env fuel i c).2, i ≤ evTag ev := by
  intro fuel
  induction fuel with
  | zero =>
    intro i c ev hev
    simp [runFrom] at hev
  | succ fuel ih =>
    intro i c ev hev
    rw [runFrom] at hev
    by_cases hlt : i < env.strat.attempts
    · rw [if_pos hlt] at hev
      by_cases hcont : (stepIter env i c).2.2 = true
      · simp only [hcont, if_true] at hev
        rcases List.mem_append.mp (by simpa using hev) with h | h
        · exact le_of_eq (evTag_mem_block env i c ev h).symm
        · exact Nat.le_of_succ_le (ih (i + 1) (stepIter env i c).1 ev h)
      · simp only [Bool.not_eq_true] at hcont
        simp only [hcont, Bool.false_eq_true, if_false] at hev
        exact le_of_eq (evTag_mem_block env i c ev (by simpa using hev)).symm
    · rw [if_neg hlt] at hev
      simp at hev

/-- Retry metric counting distributes over trace concatenation. -/
theorem countMetrics_append (a b : List Ev) :
    countMetrics (a ++ b) = countMetrics a + countMetrics b := by
  simp [countMetrics, List.filter_append]

/-- Iteration entry counting distributes over trace concatenation. -/
theorem countStarts_append (a b : List Ev) :
    countStarts (a ++ b) = countStarts a + countStarts b := by
  simp [countStarts, List.filter_append]

/-- On a loop run whose first iteration already has a positive index, the
retry metric events never outnumber the iterations entered. -/
theorem runFrom_counts (env : LoopEnv) :
    ∀ fuel i c, 0 < i →
      countMetrics (runFrom env fuel i c).2 ≤ countStarts (runFrom env fuel i c).2 := by
  intro fuel
  induction fuel with
  | zero =>
    intro i c _
    simp [runFrom, countMetrics, countStarts]
  | succ fuel ih =>
    intro i c hi
    rw [runFrom]
    by_cases hlt : i < env.strat.attempts
    · rw [if_pos hlt]
      have hb := counts_block env i c
      by_cases hcont : (stepIter env i c).2.2 = true
      · simp only [hcont, if_true]
        have hr := ih (i + 1) (stepIter env i c).1 (by omega)
        simp only [countMetrics_append, countStarts_append]
        omega
      · simp only [Bool.not_eq_true] at hcont
        simp only [hcont, Bool.false_eq_true, if_false]
        omega
    · rw [if_neg hlt]
      simp [countMetrics, countStarts]

/-- Absorption of consecutive final-attempt tests. -/
theorem decide_absorb (a i : Nat) :
    (decide (a ≤ i + 1) || decide (a ≤ i)) = decide (a ≤ i + 1) := by
  by_cases h1 : a ≤ i + 1 <;> by_cases h2 : a ≤ i <;> first | omega | simp [h1, h2]

/-- With at least one configured attempt, a whole request emits strictly
fewer retry metric events than loop iterations entered. -/
theorem runLoop_metrics_lt_starts (env : LoopEnv) (h1 : 1 ≤ env.strat.attempts) :
    countMetrics (runLoop env).2 < countStarts (runLoop env).2 := by
  unfold runLoop
  cases hA : env.strat.attempts with
  | zero => omega
  | succ f =>
    rw [runFrom]
    rw [if_pos (by omega)]
    have hb := counts_block env 0 initCore
    by_cases hcont : (stepIter env 0 initCore).2.2 = true
    · simp only [hcont, if_true]
      have hr := runFrom_counts env f (0 + 1) (stepIter env 0 initCore).1 (by omega)
      simp only [countMetrics_append, countStarts_append]
      omega
    · simp only [Bool.not_eq_true] at hcont
      simp only [hcont, Bool.false_eq_true, if_false]
      omega

/-- On a loop run entered with the LastAttempt flag reflecting whether the
configured attempts are already exhausted, every round trip observes the
flag true exactly when its index is the final configured attempt. -/
theorem runFrom_flags (env : LoopEnv) :
    ∀ fuel i c, c.lastAttempt = decide (env.strat.attempts ≤ i) →
      ∀ j b, Ev.roundTrip j b ∈ (runFrom env fuel i c).2 →
        b = decide (env.strat.attempts ≤ j + 1) := by
  intro fuel
  induction fuel with
  | zero =>
    intro i c _ j b hev
    simp [runFrom] at hev
  | succ fuel ih =>
    intro i c hla j b hev
    rw [runFrom] at hev
    by_cases hlt : i < env.strat.attempts
    · rw [if_pos hlt] at hev
      by_cases hcont : (stepIter env i c).2.2 = true
      · simp only [hcont, if_true] at hev
        rcases List.mem_append.mp (by simpa using hev) with h | h
        · have hj : j = i := by
            simpa [evTag] using evTag_mem_block env i c _ h
          subst hj
          have hfl := roundTrip_flag_block env j c j b h
          rw [hfl, hla, decide_absorb]
        · have hla' : (stepIter env i c).1.lastAttempt =
              decide (env.strat.attempts ≤ i + 1) := by
            rw [cont_flag_block env i c hcont, hla, decide_absorb]
          exact ih (i + 1) (stepIter env i c).1 hla' j b h
      · simp only [Bool.not_eq_true] at hcont
        simp only [hcont, Bool.false_eq_true, if_false] at hev
        have h : Ev.roundTrip j b ∈ (stepIter env i c).2.1 := by simpa using hev
        have hj : j = i := by
          simpa [evTag] using evTag_mem_block env i c _ h
        subst hj
        have hfl := roundTrip_flag_block env j c j b h
        rw [hfl, hla, decide_absorb]
    · rw [if_neg hlt] at hev
      simp at hev

/-- When attempt i fails upstream with a context-canceled error, a loop run
whose trace shows the round trip of attempt i contains no failed retry
metric for attempt i. -/
theorem runFrom_canceled_suppressed (env : LoopEnv) (i : Nat) (e : Err)
    (hup : env.upstream i = Except.error e) (hcanc : e.canceled = true) :
    ∀ fuel i0 c b, Ev.roundTrip i b ∈ (runFrom env fuel i0 c).2 →
      Ev.retryMetric i "false" ∉ (runFrom env fuel i0 c).2 := by
  intro fuel
  induction fuel with
  | zero =>
    intro i0 c b hrt
    simp [runFrom] at hrt
  | succ fuel ih =>
    intro i0 c b hrt hmet
    rw [runFrom] at hrt hmet
    by_cases hlt : i0 < env.strat.attempts
    · rw [if_pos hlt] at hrt hmet
      by_cases hcont : (stepIter env i0 c).2.2 = true
      · simp only [hcont, if_true] at hrt hmet
        rcases List.mem_append.mp (by simpa using hrt) with hrtb | hrtr <;>
          rcases List.mem_append.mp (by simpa using hmet) with hmb | hmr
        · have hi : i = i0 := by
            simpa [evTag] using evTag_mem_block env i0 c _ hrtb
          subst hi
          exact canceled_no_false_metric_block env i c e hup hcanc i b hrtb hmb
        · have hi : i = i0 := by
            simpa [evTag] using evTag_mem_block env i0 c _ hrtb
          have := runFrom_tag_ge env fuel (i0 + 1) (stepIter env i0 c).1 _ hmr
          simp [evTag] at this
          omega
        · have hi : i = i0 := by
            simpa [evTag] using evTag_mem_block env i0 c _ hmb
          have := runFrom_tag_ge env fuel (i0 + 1) (stepIter env i0 c).1 _ hrtr
          simp [evTag] at this
          omega
        · exact ih (i0 + 1) (stepIter env i0 c).1 b hrtr hmr
      · simp only [Bool.not_eq_true] at hcont
        simp only [hcont, Bool.false_eq_true, if_false] at hrt hmet
        have hi : i = i0 := by
          simpa [evTag] using
            evTag_mem_block env i0 c _ (show Ev.roundTrip i b ∈ _ by simpa using hrt)
        subst hi
        exact canceled_no_false_metric_block env i c e hup hcanc i b
          (by simpa using hrt) (by simpa using hmet)
    · rw [if_neg hlt] at hrt
      simp at hrt

/-- Claim C4: the first attempt (index 0) never consults the breaker's
Allow and its outcome never feeds MarkSuccess/MarkFailed (no Allow
consultation or breaker feed event carries index 0); for every executed
attempt with index above 0 the Allow consultation comes before the round
trip in the iteration's event block; and when Allow refuses, the retry is
abandoned (the loop stops, no round trip happens), classified as a breaker
event for the distinct NotAllowed signal and as a failed event otherwise. -/
theorem retry_gate_contract (env : LoopEnv) (i : Nat) (c : LoopCore) :
    (∀ ev ∈ (runLoop env).2,
        (isAllowCheckEv ev = true ∨ isBreakerMarkEv ev = true) → 0 < evTag ev)
    ∧ (∀ b, 0 < i → Ev.roundTrip i b ∈ (stepIter env i c).2.1 →
        ∃ rest, (stepIter env i c).2.1 = Ev.iterStart i :: Ev.allowCheck i :: rest
          ∧ Ev.roundTrip i b ∈ rest)
    ∧ (∀ r, 0 < i → env.retryEnabled = true → env.allow c.breaker = some r →
        (stepIter env i c).2.2 = false
        ∧ (∀ b, Ev.roundTrip i b ∉ (stepIter env i c).2.1)
        ∧ (r = AllowRefusal.notAllowed →
            Ev.retryMetric i "breaker" ∈ (stepIter env i c).2.1)
        ∧ (∀ e, r = AllowRefusal.other e → e.canceled = false →
            Ev.retryMetric i "false" ∈ (stepIter env i c).2.1)) := by
  refine ⟨?_, ?_, ?_⟩
  · intro ev hev hcl
    have := runFrom_mem_lift env
      (fun ev => (isAllowCheckEv ev = true ∨ isBreakerMarkEv ev = true ∨
        isRetryMetricEv ev = true) → 0 < evTag ev)
      (fun i c ev hevb hc => by
        have h1 := gated_mem_block env i c ev hevb hc
        have h2 := evTag_mem_block env i c ev hevb
        omega)
      env.strat.attempts 0 initCore ev hev
    exact this (by tauto)
  · intro b hi hrt
    exact allow_before_roundTrip_block env i c i b hi hrt
  · intro r hi hre hallow
    exact refusal_block env i c r hi hre hallow

/-- Witness for claim C4: with a breaker window of 15 requests and 0
successes, the Allow decision is NotAllowed, iteration 1 is abandoned and
the breaker-tripped retry event is emitted. -/
theorem retry_gate_contract_inst :
    breakerAllow ⟨15, 0⟩ = some AllowRefusal.notAllowed
    ∧ (stepIter envAlwaysRetriable 1 ⟨none, none, false, ⟨15, 0⟩⟩).2.2 = false
    ∧ Ev.retryMetric 1 "breaker" ∈
        (stepIter envAlwaysRetriable 1 ⟨none, none, false, ⟨15, 0⟩⟩).2.1 := by
  have h := (retry_gate_contract envAlwaysRetriable 1
    ⟨none, none, false, ⟨15, 0⟩⟩).2.2 AllowRefusal.notAllowed
    (by decide) rfl (by decide)
  exact ⟨by decide, h.1, h.2.2.1 rfl⟩

/-- Claim C5: retry metric events are emitted only for attempt indices
above 0, a request entering n loop iterations emits at most n minus 1 retry
events, and a failed event is suppressed when the attempt's error is
context-canceled. -/
theorem retry_metrics_contract (env : LoopEnv) :
    (1 ≤ env.strat.attempts →
      countMetrics (runLoop env).2 < countStarts (runLoop env).2)
    ∧ (∀ j st, Ev.retryMetric j st ∈ (runLoop env).2 → 0 < j)
    ∧ (∀ i e b, env.upstream i = Except.error e → e.canceled = true →
        Ev.roundTrip i b ∈ (runLoop env).2 →
        Ev.retryMetric i "false" ∉ (runLoop env).2) := by
  refine ⟨runLoop_metrics_lt_starts env, ?_, ?_⟩
  · intro j st hmem
    have := runFrom_mem_lift env
      (fun ev => isRetryMetricEv ev = true → 0 < evTag ev)
      (fun i c ev hevb hc => by
        have h1 := gated_mem_block env i c ev hevb (by tauto)
        have h2 := evTag_mem_block env i c ev hevb
        omega)
      env.strat.attempts 0 initCore _ hmem
    simpa [isRetryMetricEv, evTag] using this
  · intro i e b hup hcanc hrt
    exact runFrom_canceled_suppressed env i e hup hcanc env.strat.attempts 0 initCore b hrt

/-- Witness for claim C5: an always-retriable three-attempt request emits
two retry events over three iterations; the failed event of index 2 has a
positive index; and a request whose retries fail with context-canceled
errors emits no failed event for them. -/
theorem retry_metrics_contract_inst :
    (1 ≤ envCancelRetry.strat.attempts
      ∧ countMetrics (runLoop envCancelRetry).2 < countStarts (runLoop envCancelRetry).2)
    ∧ (Ev.retryMetric 2 "false" ∈ (runLoop envAlwaysRetriable).2 ∧ 0 < 2)
    ∧ (envCancelRetry.upstream 1 = Except.error errCanceled
      ∧ Ev.roundTrip 1 false ∈ (runLoop envCancelRetry).2
      ∧ Ev.retryMetric 1 "false" ∉ (runLoop envCancelRetry).2) := by
  have h := retry_metrics_contract envCancelRetry
  have h2 := retry_metrics_contract envAlwaysRetriable
  refine ⟨⟨by decide, h.1 (by decide)⟩, ⟨by decide, h2.2.1 2 "false" (by decide)⟩, ?_⟩
  exact ⟨rfl, by decide, h.2.2 1 errCanceled false rfl rfl (by decide)⟩

/-- Counterexample to claim C8: for a two-attempt endpoint whose first
attempt succeeds with a non-retriable response, the only upstream call —
which is the last one — observed LastAttempt false during its middleware
chain invocation (the flag is set only after the call returns). -/
theorem lastAttempt_counterexample :
    roundTripsOf (runLoop envEarlySuccess).2 = [(0, false)]
    ∧ (runLoop envEarlySuccess).1.err = none
    ∧ (runLoop envEarlySuccess).1.resp = some respOkPlain := by decide

/-- Claim C8 as amended: in buffered mode LastAttempt is true during the
middleware chain invocation of attempt j exactly when j is the final
configured attempt index (attempts less than or equal to j+1); when an
earlier attempt succeeds and becomes the last upstream call, the flag is
set only after that call returns; in stream mode LastAttempt is true from
handler entry onward, including during the single upstream invocation. -/
theorem lastAttempt_flag_amended (env : LoopEnv) (grpcEndpoint : Bool)
    (o : Except Err Response) :
    (∀ j b, Ev.roundTrip j b ∈ (runLoop env).2 →
      b = decide (env.strat.attempts ≤ j + 1))
    ∧ (runStreamHandler grpcEndpoint o).lastAttemptAtEntry = true
    ∧ (runStreamHandler grpcEndpoint o).lastAttemptAtInvoke = true := by
  refine ⟨?_, ?_, ?_⟩
  · intro j b h
    by_cases hA : env.strat.attempts = 0
    · unfold runLoop at h
      rw [hA] at h
      simp [runFrom] at h
    · have h0 : initCore.lastAttempt = decide (env.strat.attempts ≤ 0) := by
        have hn : ¬ env.strat.attempts ≤ 0 := by omega
        simp [initCore, hn]
      exact runFrom_flags env env.strat.attempts 0 initCore h0 j b h
  · cases o <;> rfl
  · cases o <;> rfl

/-- Witness for claim C8's amended theorem: attempt 1 of a three-attempt
request runs with the flag false, and a stream request has the flag true
from entry. -/
theorem lastAttempt_flag_amended_inst :
    Ev.roundTrip 1 false ∈ (runLoop envAlwaysRetriable).2
    ∧ false = decide (envAlwaysRetriable.strat.attempts ≤ 1 + 1)
    ∧ (runStreamHandler false (Except.error errBoom)).lastAttemptAtEntry = true := by
  have h := lastAttempt_flag_amended envAlwaysRetriable false (Except.error errBoom)
  exact ⟨by decide, h.1 1 false (by decide), h.2.1⟩

/-- Counterexample to claim C9: a buffered request whose only attempt
reaches the upstream and fails with a transport error never signals the
selector finalizer — DoneFunc is called zero times, not exactly once. -/
theorem donefunc_counterexample :
    Ev.roundTrip 0 true ∈ (runLoop envAllFail).2
    ∧ (runHandler envAllFail false).doneSignals = [] := by decide

/-- Claim C9 as amended: in buffered mode DoneFunc is signalled exactly
once — by doCopyBody, with Err on a copy failure and ReplyMD on success —
when the loop ends without a pending error and the response body is
non-nil, and zero times otherwise (error-mapper path or nil body); in
stream mode it is signalled exactly once, by the ErrorHandler on failure or
ModifyResponse on success. -/
theorem donefunc_amended (env : LoopEnv) (grpcEndpoint : Bool)
    (o : Except Err Response) :
    (runHandler env grpcEndpoint).doneSignals.length =
      (if (runLoop env).1.err = none ∧ respHasBody (runLoop env).1.resp = true
        then 1 else 0)
    ∧ (runStreamHandler grpcEndpoint o).doneSignals.length = 1 := by
  constructor
  · unfold runHandler
    rcases hr : runLoop env with ⟨c, t⟩
    rcases c with ⟨resp, err, la, br⟩
    cases err with
    | some e => simp [relay, respHasBody]
    | none =>
      cases resp with
      | none => simp [relay, respHasBody]
      | some r =>
        rcases r with ⟨sc, hd, tr, body, closed⟩
        cases body with
        | none => simp [relay, respHasBody]
        | some bs =>
          cases closed <;> simp [relay, respHasBody]
  · cases o <;> rfl

/-- Counterexample to claim C2: for an attempts=1 endpoint whose upstream
succeeds with a retriable 500 carrying body bytes 97 98 99, the handler
performs no further attempt and relays status and headers, but the relayed
body is not the upstream body — the retry loop closed the response body, so
the copy fails. -/
theorem retriable_single_attempt_counterexample :
    (runHandler envSingleRetriable false).wroteStatus = some 500
    ∧ (runHandler envSingleRetriable false).headersOut = [("K", ["V"])]
    ∧ roundTripsOf (runHandler envSingleRetriable false).trace = [(0, true)]
    ∧ ¬ (runHandler envSingleRetriable false).bodyOut = [97, 98, 99]
    ∧ (runHandler envSingleRetriable false).copyFailed = true := by decide

/-- Claim C2 as amended: for every buffered attempts=1 endpoint whose
upstream round-trip succeeds with a response matching a retry condition,
the handler performs no further attempt and relays the status code and the
headers verbatim, but the response body was closed by the retry loop, so
for a non-nil body the copy fails, no body bytes reach the client, and the
selector is signalled with the copy error. -/
theorem retriable_single_attempt_amended (conds : List Cond) (r : Response)
    (hj : judgeRetryRequired conds r = true) :
    roundTripsOf (runHandler (singleAttemptEnv conds r) false).trace = [(0, true)]
    ∧ (runHandler (singleAttemptEnv conds r) false).wroteStatus = some r.statusCode
    ∧ (runHandler (singleAttemptEnv conds r) false).headersOut = r.header
    ∧ (∀ bs, r.body = some bs →
        (runHandler (singleAttemptEnv conds r) false).bodyOut = []
        ∧ (runHandler (singleAttemptEnv conds r) false).copyFailed = true
        ∧ (runHandler (singleAttemptEnv conds r) false).doneSignals = [DoneSig.errSig])
    ∧ (r.body = none →
        (runHandler (singleAttemptEnv conds r) false).bodyOut = []
        ∧ (runHandler (singleAttemptEnv conds r) false).doneSignals = []) := by
  have hloop : runLoop (singleAttemptEnv conds r) =
      (⟨some { r with bodyClosed := true }, none, true, initBreaker⟩,
        [Ev.iterStart 0, Ev.roundTrip 0 true]) := by
    unfold runLoop singleAttemptEnv
    simp [runFrom, stepIter, attemptBody, markFailedSt, markFailedEvs, hj, initCore]
  unfold runHandler
  rw [hloop]
  cases hb : r.body with
  | none => simp [relay, roundTripsOf, hb]
  | some bs => simp [relay, roundTripsOf, hb]

/-- Witness for claim C2's amended theorem at the concrete retriable 500
response. -/
theorem retriable_single_attempt_amended_inst :
    judgeRetryRequired [Cond.byStatusCode 500 504] respRetriable = true
    ∧ (runHandler (singleAttemptEnv [Cond.byStatusCode 500 504] respRetriable)
        false).bodyOut = []
    ∧ (runHandler (singleAttemptEnv [Cond.byStatusCode 500 504] respRetriable)
        false).copyFailed = true := by
  have h := retriable_single_attempt_amended [Cond.byStatusCode 500 504] respRetriable
    (by decide)
  exact ⟨by decide, (h.2.2.2.1 [97, 98, 99] rfl).1, (h.2.2.2.1 [97, 98, 99] rfl).2.1⟩

end Goddess
